import Mathlib

set_option allowUnsafeReducibility true
set_option maxRecDepth 10000

attribute [semireducible] Rat.add Rat.mul Rat.inv Rat.div Rat.sub Rat.neg Rat.blt

deriving instance DecidableEq for Except

/-!
Verification of the Theta forecasting procedure described in the repository's
theta-model notebook (`src/examples/notebooks/theta-model.ipynb`) and its
accompanying specification.  The implementation module
`statsmodels.tsa.forecasting.theta` is not part of the source tree, so the
components below are modelled from the notebook's displayed equations and the
specification's component descriptions, over exact rational arithmetic.
-/

namespace ThetaSpec

/-- Error taxonomy of the Theta procedure (spec section 7):
configuration errors at `fit` time, invalid forecast arguments, and
estimation failures of the level smoother. -/
inductive ThetaError
  | configurationError
  | invalidArgument
  | estimationError
deriving DecidableEq, Repr

/-- Seasonal decomposition method: multiplicative or additive (spec 4.2). -/
inductive Method
  | multiplicative
  | additive
deriving DecidableEq, Repr

/-- Arithmetic mean of a list of rationals (0 for the empty list, since
rational division by zero is zero). -/
def mean (xs : List ℚ) : ℚ := xs.sum / (xs.length : ℚ)

/-- Time regressors `t - 1` for `t = 1..n`, i.e. `0, 1, ..., n-1`, used by the
OLS trend regression `X_t = a0 + b0 (t-1) + eps_t` of the notebook. -/
def timeRegressors (n : ℕ) : List ℚ := (List.range n).map (fun t => (t : ℚ))

/-- OLS slope `b0` of the regression `X_t = a0 + b0 (t-1) + eps_t` in closed
form (spec 4.3, notebook regression equation). -/
def olsSlope (xs : List ℚ) : ℚ :=
  let ts := timeRegressors xs.length
  let tbar := mean ts
  let xbar := mean xs
  let num := ((ts.zip xs).map (fun p => (p.1 - tbar) * (p.2 - xbar))).sum
  let den := (ts.map (fun t => (t - tbar) ^ 2)).sum
  num / den

/-- OLS intercept `a0` of the trend regression (spec 4.3). -/
def olsIntercept (xs : List ℚ) : ℚ :=
  mean xs - olsSlope xs * mean (timeRegressors xs.length)

/-- One step of the simple exponential smoother, exactly as displayed in the
notebook: the new smoothed value is `(1 - alpha) * X_t + alpha * Xtilde_{t-1}`. -/
def sesStep (alpha prev x : ℚ) : ℚ := (1 - alpha) * x + alpha * prev

/-- Tail of the smoothed level path given the previous smoothed value. -/
def sesPathAux (alpha : ℚ) (prev : ℚ) : List ℚ → List ℚ
  | [] => []
  | x :: xs => sesStep alpha prev x :: sesPathAux alpha (sesStep alpha prev x) xs

/-- Smoothed level path of the SES recursion with `Xtilde_1 = X_1`
(notebook recursion, spec 4.4). -/
def sesPath (alpha : ℚ) : List ℚ → List ℚ
  | [] => []
  | x :: xs => x :: sesPathAux alpha x xs

/-- Last smoothed value `Xtilde_n` of a level path (0 for an empty path). -/
def lastLevel (path : List ℚ) : ℚ := path.getLast?.getD 0

/-- Centered sum of lagged products used for the autocorrelation at a lag:
pairs `(x_{t+lag}, x_t)` of deviations from the mean. -/
def acovSum (xs : List ℚ) (lag : ℕ) : ℚ :=
  let xbar := mean xs
  (((xs.drop lag).zip xs).map (fun p => (p.1 - xbar) * (p.2 - xbar))).sum

/-- Modelled from the spec: the SeasonalityTester of spec 4.1 (the tester of
`statsmodels.tsa.forecasting.theta` is not in the source tree).  The series is
seasonal when the lag-`m` autocorrelation exceeds the large-sample bound
`1.645 / sqrt n` in absolute value; the comparison is squared to stay inside
the rationals, and a zero-variance series carries no seasonal signal. -/
def isSeasonal (xs : List ℚ) (m : ℕ) : Bool :=
  let c0 := acovSum xs 0
  if c0 = 0 then false
  else
    let r := acovSum xs m / c0
    decide ((1645 / 1000 : ℚ) ^ 2 < r ^ 2 * (xs.length : ℚ))

/-- Neutral seasonal factor of a method: 1 multiplicatively, 0 additively. -/
def defaultFactor : Method → ℚ
  | .multiplicative => 1
  | .additive => 0

/-- Remove the seasonal factor from one observation (spec 4.2):
division under the multiplicative method, subtraction under the additive one. -/
def adjustValue (method : Method) (x fa : ℚ) : ℚ :=
  match method with
  | .multiplicative => x / fa
  | .additive => x - fa

/-- Restore the seasonal factor onto one value (spec 4.2): multiplication
under the multiplicative method, addition under the additive one. -/
def restoreValue (method : Method) (x fa : ℚ) : ℚ :=
  match method with
  | .multiplicative => x * fa
  | .additive => x + fa

/-- Apply a binary operation to each element together with the seasonal factor
of its phase `t mod m`, starting from time index `t`. -/
def mapWithPhase (g : ℚ → ℚ → ℚ) (factors : List ℚ) (m : ℕ) (d : ℚ) :
    ℕ → List ℚ → List ℚ
  | _, [] => []
  | t, x :: xs =>
      g x (factors.getD (t % m) d) :: mapWithPhase g factors m d (t + 1) xs

/-- Deseasonalize a series: `adjusted[t] = series[t] / factors[t mod m]`
(multiplicative) or `series[t] - factors[t mod m]` (additive), per spec 4.2. -/
def deseasonalizeWith (method : Method) (factors : List ℚ) (m : ℕ)
    (xs : List ℚ) : List ℚ :=
  mapWithPhase (adjustValue method) factors m (defaultFactor method) 0 xs

/-- Reseasonalize a series: the inverse per-element operation of
`deseasonalizeWith`, cycling the factors with the same phase (spec 4.2). -/
def reseasonalizeWith (method : Method) (factors : List ℚ) (m : ℕ)
    (xs : List ℚ) : List ℚ :=
  mapWithPhase (restoreValue method) factors m (defaultFactor method) 0 xs

/-- Centered moving average of window length `m` around 0-based position `t`;
an even period uses the standard half-weighted ends over `m + 1` points. -/
def centeredMA (xs : List ℚ) (m t : ℕ) : ℚ :=
  if m % 2 = 1 then mean ((xs.drop (t - m / 2)).take m)
  else
    let w := (xs.drop (t - m / 2)).take (m + 1)
    (w.headD 0 / 2 + ((w.drop 1).take (m - 1)).sum + (w.drop m).headD 0 / 2) / (m : ℚ)

/-- Detrended value at a position: ratio to the centered moving average under
the multiplicative method, difference from it under the additive one. -/
def detrendedAt (method : Method) (xs : List ℚ) (m t : ℕ) : ℚ :=
  match method with
  | .multiplicative => xs.getD t 0 / centeredMA xs m t
  | .additive => xs.getD t 0 - centeredMA xs m t

/-- Modelled from the spec: raw seasonal factors of the Deseasonalizer
(spec 4.2; the decomposition routine itself is not in the source tree) —
per-phase averages of the detrended values over the centered range. -/
def seasonalFactorsRaw (method : Method) (xs : List ℚ) (m : ℕ) : List ℚ :=
  let n := xs.length
  let lo := m / 2
  (List.range m).map (fun p =>
    mean (((List.range n).filter
      (fun t => decide (lo ≤ t) && decide (t + lo < n) && decide (t % m = p))).map
      (fun t => detrendedAt method xs m t)))

/-- Modelled from the spec: seasonal factors normalized so that they average
to 1 (multiplicative) or to 0 (additive) across a full period (spec 4.2). -/
def seasonalFactors (method : Method) (xs : List ℚ) (m : ℕ) : List ℚ :=
  let raw := seasonalFactorsRaw method xs m
  match method with
  | .multiplicative => raw.map (fun r => r / mean raw)
  | .additive => raw.map (fun r => r - mean raw)

/-- Modelled from the spec: `decompose(series, m, method)` of the
Deseasonalizer returns the adjusted series and the seasonal factors. -/
def decompose (series : List ℚ) (m : ℕ) (method : Method) :
    List ℚ × List ℚ :=
  let factors := seasonalFactors method series m
  (deseasonalizeWith method factors m series, factors)

/-- Fitted state assembled by `fit` (spec data model: FittedParameters,
SeasonalityDecision, SeasonalFactors, sample sizes), immutable afterwards. -/
structure FittedTheta where
  a0 : ℚ
  b0 : ℚ
  alpha : ℚ
  smoothedPath : List ℚ
  seasonal : Bool
  seasonalFactors : List ℚ
  method : Method
  n : ℕ
  m : ℕ
deriving DecidableEq, Repr

/-- Modelled from the spec: `ThetaForecaster.fit` (spec 4.5; the orchestrator
of `statsmodels.tsa.forecasting.theta` is not in the source tree).  The 1-D
numerical line search (or maximum-likelihood estimation) that chooses the
smoothing parameter is an external optimizer; its returned `alpha` is passed
in, and a value outside the admissible interval `(0, 1]` surfaces as an
estimation failure.  A series shorter than `2 * m` with seasonality testing
requested fails with a configuration error before any decomposition. -/
def fit (series : List ℚ) (m : ℕ) (testSeasonality : Bool) (method : Method)
    (alpha : ℚ) : Except ThetaError FittedTheta :=
  if testSeasonality ∧ series.length < 2 * m then .error .configurationError
  else if alpha ≤ 0 ∨ 1 < alpha then .error .estimationError
  else
    let seasonal := testSeasonality && isSeasonal series m
    let factors :=
      if seasonal then seasonalFactors method series m
      else List.replicate m (defaultFactor method)
    let adjusted :=
      if seasonal then deseasonalizeWith method factors m series else series
    .ok { a0 := olsIntercept adjusted
          b0 := olsSlope adjusted
          alpha := alpha
          smoothedPath := sesPath alpha adjusted
          seasonal := seasonal
          seasonalFactors := factors
          method := method
          n := series.length
          m := m }

/-- Trend bracket `h - 1 + 1/alpha - (1-alpha)^n / alpha` of the notebook's
forecast equation. -/
def trendBracket (alpha : ℚ) (n : ℕ) (h : ℕ) : ℚ :=
  (h : ℚ) - 1 + 1 / alpha - (1 - alpha) ^ n / alpha

/-- Theta damping weight `(theta - 1) / theta`; `none` encodes
`theta = +infinity`, whose limiting weight is 1 (no damping), implemented as
the closed form rather than infinite arithmetic (spec 4.6). -/
def thetaWeight : Option ℚ → ℚ
  | some t => (t - 1) / t
  | none => 1

/-- Validity of a theta argument: a finite theta must exceed 1; infinity
(encoded as `none`) is allowed (spec 4.6). -/
def validTheta : Option ℚ → Bool
  | some t => decide (1 < t)
  | none => true

/-- Point forecast before reseasonalization at step `h`: the theta-weighted
trend contribution plus the constant last smoothed level (notebook forecast
equation, spec 4.6). -/
def pointForecastPre (f : FittedTheta) (theta : Option ℚ) (h : ℕ) : ℚ :=
  thetaWeight theta * f.b0 * trendBracket f.alpha f.n h + lastLevel f.smoothedPath

/-- Modelled from the spec: the ForecastEngine's `forecast(fitted, horizon,
theta)` (spec 4.6; the engine of `statsmodels.tsa.forecasting.theta` is not in
the source tree).  A non-positive horizon or a degenerate theta fails with
`InvalidArgument` before any computation; otherwise each step's
pre-reseasonalization forecast is reseasonalized with the factor of the future
phase `(n + h) mod m` when the series was deseasonalized. -/
def forecast (f : FittedTheta) (horizon : ℤ) (theta : Option ℚ) :
    Except ThetaError (List ℚ) :=
  if horizon ≤ 0 then .error .invalidArgument
  else if validTheta theta then
    .ok ((List.range horizon.toNat).map (fun i =>
      let v := pointForecastPre f theta (i + 1)
      if f.seasonal then
        restoreValue f.method v
          (f.seasonalFactors.getD ((f.n + (i + 1)) % f.m) (defaultFactor f.method))
      else v))
  else .error .invalidArgument

/-- Three separate forecast components of a fitted result (spec 4.6). -/
structure ForecastComponents where
  trend : List ℚ
  level : List ℚ
  seasonal : List ℚ
deriving DecidableEq, Repr

/-- Modelled from the spec: `forecast_components(horizon)` (spec 4.6, notebook
`forecast_components` cell).  It returns the theta-free trend piece
`b0 * [h - 1 + 1/alpha - (1-alpha)^n / alpha]`, the constant SES level piece,
and the seasonal factor of each future phase, without summing them, so that
forecasts for any theta can be rebuilt by reweighting without refitting. -/
def forecast_components (f : FittedTheta) (horizon : ℤ) :
    Except ThetaError ForecastComponents :=
  if horizon ≤ 0 then .error .invalidArgument
  else
    let hs := List.range horizon.toNat
    .ok { trend := hs.map (fun i => f.b0 * trendBracket f.alpha f.n (i + 1))
          level := hs.map (fun _ => lastLevel f.smoothedPath)
          seasonal := hs.map (fun i =>
            if f.seasonal then
              f.seasonalFactors.getD ((f.n + (i + 1)) % f.m) (defaultFactor f.method)
            else defaultFactor f.method) }

/-- Smoothing parameter of the maximum-likelihood mode: the notebook sets
`alpha = min(gamma + 1, 0.9998)` from the estimated IMA coefficient. -/
def mleAlpha (gamma : ℚ) : ℚ := min (gamma + 1) (9998 / 10000)

/-- Modelled from the spec: the LevelSmoother's maximum-likelihood mode
(spec 4.4).  The maximum-likelihood estimation of the integrated
moving-average process `X_t = X_{t-1} + gamma eps_{t-1} + eps_t` is performed
by an external optimizer (SARIMAX); `gamma` is its estimate, and the mode
returns the capped smoothing parameter together with the realized smoothed
level path. -/
def levelSmootherMLE (gamma : ℚ) (xs : List ℚ) : ℚ × List ℚ :=
  (mleAlpha gamma, sesPath (mleAlpha gamma) xs)

/-- Ordering on theta arguments with `none` (infinity) as the top element. -/
def thetaLE : Option ℚ → Option ℚ → Prop
  | _, none => True
  | some x, some y => x ≤ y
  | none, some _ => False

/-- Concrete series `1, 2, ..., 20` of the pure-linear-trend scenario. -/
def series20 : List ℚ := (List.range 20).map (fun t => (t : ℚ) + 1)

/-- Concrete constant series: the value 100 repeated 24 times. -/
def const24 : List ℚ := List.replicate 24 100

/-- Concrete fitted result: exactly what `fit` produces on the series `[0, 4]`
with no seasonality testing and smoothing parameter 1. -/
def sampleFitted : FittedTheta :=
  { a0 := 0, b0 := 4, alpha := 1, smoothedPath := [0, 0], seasonal := false,
    seasonalFactors := [], method := .multiplicative, n := 2, m := 0 }

/-- Smoothing a value onto itself leaves it unchanged. -/
theorem sesStep_self (alpha c : ℚ) : sesStep alpha c c = c := by
  unfold sesStep; ring

/-- The SES tail of a constant series is that constant series. -/
theorem sesPathAux_const (alpha c : ℚ) (k : ℕ) :
    sesPathAux alpha c (List.replicate k c) = List.replicate k c := by
  induction k with
  | zero => rfl
  | succ k ih => simp [List.replicate_succ, sesPathAux, sesStep_self, ih]

/-- The smoothed level path of a constant series is the series itself. -/
theorem sesPath_const (alpha c : ℚ) (n : ℕ) :
    sesPath alpha (List.replicate n c) = List.replicate n c := by
  cases n with
  | zero => rfl
  | succ n => simp [List.replicate_succ, sesPath, sesPathAux_const]

/-- With smoothing parameter 1 an SES update keeps the previous level. -/
theorem sesStep_one (p x : ℚ) : sesStep 1 p x = p := by
  unfold sesStep; ring

/-- With smoothing parameter 1 the SES tail repeats the starting level. -/
theorem sesPathAux_one (p : ℚ) (xs : List ℚ) :
    sesPathAux 1 p xs = List.replicate xs.length p := by
  induction xs generalizing p with
  | nil => rfl
  | cons x xs ih => simp [sesPathAux, sesStep_one, ih, List.replicate_succ]

/-- With smoothing parameter 1 the smoothed path is frozen at the first
observation of the series. -/
theorem sesPath_one (x : ℚ) (xs : List ℚ) :
    sesPath 1 (x :: xs) = List.replicate (xs.length + 1) x := by
  simp [sesPath, sesPathAux_one, List.replicate_succ]

/-- The last level of a nonempty constant path is that constant. -/
theorem lastLevel_replicate (n : ℕ) (c : ℚ) (h : 0 < n) :
    lastLevel (List.replicate n c) = c := by
  unfold lastLevel
  rw [List.getLast?_replicate]
  simp [Nat.pos_iff_ne_zero.mp h]

/-- Mapping a constant function over a range yields a replicated list. -/
theorem range_map_const (n : ℕ) (c : ℚ) :
    (List.range n).map (fun _ => c) = List.replicate n c := by
  induction n with
  | zero => rfl
  | succ n ih =>
    rw [List.range_succ, List.map_append, ih, List.replicate_succ']
    rfl

/-- Closed form of `fit` when seasonality testing is switched off. -/
theorem fit_not_seasonal (series : List ℚ) (m : ℕ) (method : Method)
    (alpha : ℚ) (h0 : 0 < alpha) (h1 : alpha ≤ 1) :
    fit series m false method alpha = .ok
      { a0 := olsIntercept series, b0 := olsSlope series, alpha := alpha,
        smoothedPath := sesPath alpha series, seasonal := false,
        seasonalFactors := List.replicate m (defaultFactor method),
        method := method, n := series.length, m := m } := by
  unfold fit
  rw [if_neg (by simp), if_neg (by push_neg; exact ⟨h0, h1⟩)]
  simp

/-- Closed form of `fit` when seasonality testing runs on sufficient data but
finds no seasonality. -/
theorem fit_tested_not_seasonal (series : List ℚ) (m : ℕ) (method : Method)
    (alpha : ℚ) (hlen : ¬ series.length < 2 * m)
    (hseas : isSeasonal series m = false)
    (h0 : 0 < alpha) (h1 : alpha ≤ 1) :
    fit series m true method alpha = .ok
      { a0 := olsIntercept series, b0 := olsSlope series, alpha := alpha,
        smoothedPath := sesPath alpha series, seasonal := false,
        seasonalFactors := List.replicate m (defaultFactor method),
        method := method, n := series.length, m := m } := by
  unfold fit
  rw [if_neg (by simp [hlen]), if_neg (by push_neg; exact ⟨h0, h1⟩)]
  simp [hseas]

/-- Closed form of `forecast` on valid arguments. -/
theorem forecast_ok_def (f : FittedTheta) (horizon : ℤ) (theta : Option ℚ)
    (hpos : 0 < horizon) (hv : validTheta theta = true) :
    forecast f horizon theta = .ok ((List.range horizon.toNat).map (fun i =>
      let v := pointForecastPre f theta (i + 1)
      if f.seasonal then
        restoreValue f.method v
          (f.seasonalFactors.getD ((f.n + (i + 1)) % f.m) (defaultFactor f.method))
      else v)) := by
  unfold forecast
  rw [if_neg (not_le.mpr hpos), if_pos hv]

/-- Closed form of `forecast_components` on a positive horizon. -/
theorem forecast_components_ok_def (f : FittedTheta) (horizon : ℤ)
    (hpos : 0 < horizon) :
    forecast_components f horizon = .ok
      { trend := (List.range horizon.toNat).map
          (fun i => f.b0 * trendBracket f.alpha f.n (i + 1)),
        level := (List.range horizon.toNat).map
          (fun _ => lastLevel f.smoothedPath),
        seasonal := (List.range horizon.toNat).map (fun i =>
          if f.seasonal then
            f.seasonalFactors.getD ((f.n + (i + 1)) % f.m) (defaultFactor f.method)
          else defaultFactor f.method) } := by
  unfold forecast_components
  rw [if_neg (not_le.mpr hpos)]

/-- A positional lookup with a nonzero default in a list of nonzero values is
nonzero. -/
theorem getD_ne_zero (l : List ℚ) (i : ℕ) (d : ℚ) (hd : d ≠ 0)
    (hl : ∀ fa ∈ l, fa ≠ 0) : l.getD i d ≠ 0 := by
  by_cases hi : i < l.length
  · rw [List.getD_eq_getElem l d hi]
    exact hl _ (List.getElem_mem hi)
  · rw [List.getD_eq_default l d (le_of_not_lt hi)]
    exact hd

/-- Removing a seasonal factor right after restoring it is the identity,
whatever the phase offset, provided multiplicative factors are nonzero. -/
theorem mapWithPhase_roundtrip (method : Method) (factors : List ℚ) (m : ℕ)
    (hnz : method = .multiplicative → ∀ fa ∈ factors, fa ≠ 0)
    (t : ℕ) (xs : List ℚ) :
    mapWithPhase (adjustValue method) factors m (defaultFactor method) t
      (mapWithPhase (restoreValue method) factors m (defaultFactor method) t xs)
      = xs := by
  induction xs generalizing t with
  | nil => rfl
  | cons x xs ih =>
    simp only [mapWithPhase]
    rw [ih (t + 1)]
    cases method with
    | multiplicative =>
      have hfa : factors.getD (t % m) (defaultFactor Method.multiplicative) ≠ 0 :=
        getD_ne_zero factors (t % m) _ one_ne_zero (hnz rfl)
      simp only [adjustValue, restoreValue]
      rw [mul_div_cancel_right₀ x hfa]
    | additive =>
      simp [adjustValue, restoreValue]

/-- Every valid theta weight is at most the undamped weight 1. -/
theorem thetaWeight_le_one (t : Option ℚ) (hv : validTheta t = true) :
    thetaWeight t ≤ 1 := by
  cases t with
  | none => exact le_refl 1
  | some x =>
    have hx : 1 < x := by simpa [validTheta] using hv
    have hx0 : 0 < x := lt_trans one_pos hx
    rw [thetaWeight, div_le_one hx0]
    linarith

/-- The theta damping weight is monotone in theta, with infinity on top. -/
theorem thetaWeight_mono (t u : Option ℚ) (hv : validTheta t = true)
    (hle : thetaLE t u) : thetaWeight t ≤ thetaWeight u := by
  cases t with
  | none =>
    cases u with
    | none => exact le_refl _
    | some y => exact absurd hle not_false
  | some x =>
    cases u with
    | none => exact thetaWeight_le_one (some x) hv
    | some y =>
      have hx : 1 < x := by simpa [validTheta] using hv
      have hxy : x ≤ y := hle
      have hx0 : 0 < x := lt_trans one_pos hx
      have hy0 : 0 < y := lt_of_lt_of_le hx0 hxy
      rw [thetaWeight, thetaWeight, div_le_div_iff₀ hx0 hy0]
      ring_nf
      nlinarith

/-- The trend bracket of the forecast equation is nonnegative for every
admissible smoothing parameter and every horizon step at least 1. -/
theorem trendBracket_nonneg (alpha : ℚ) (n h : ℕ) (h0 : 0 < alpha)
    (h1 : alpha ≤ 1) (hh : 1 ≤ h) : 0 ≤ trendBracket alpha n h := by
  unfold trendBracket
  have hp : (1 - alpha) ^ n ≤ 1 := pow_le_one₀ (by linarith) (by linarith)
  have hc : (1 : ℚ) ≤ (h : ℚ) := by exact_mod_cast hh
  have hdiv : (1 - alpha) ^ n / alpha ≤ 1 / alpha :=
    (div_le_div_iff_of_pos_right h0).mpr hp
  linarith

/-- Claim C5: for every series and period `m`, reseasonalizing a
deseasonalized series and immediately deseasonalizing the result reproduces
the original series, exactly over the rationals, for both the multiplicative
mode (`adjusted[t] = series[t] / factors[t mod m]`) and the additive mode
(`adjusted[t] = series[t] - factors[t mod m]`); in the multiplicative mode the
seasonal factors are nonzero (the spec requires them strictly positive). -/
theorem c5_reseasonalize_roundtrip (method : Method) (factors : List ℚ)
    (m : ℕ) (xs : List ℚ)
    (hnz : method = .multiplicative → ∀ fa ∈ factors, fa ≠ 0) :
    deseasonalizeWith method factors m
      (reseasonalizeWith method factors m xs) = xs :=
  mapWithPhase_roundtrip method factors m hnz 0 xs

/-- Witness for claim C5 at a concrete multiplicative instance. -/
theorem c5_reseasonalize_roundtrip_witness :
    ((Method.multiplicative = Method.multiplicative →
        ∀ fa ∈ ([2, 3] : List ℚ), fa ≠ 0) ∧
      deseasonalizeWith .multiplicative [2, 3] 2
        (reseasonalizeWith .multiplicative [2, 3] 2 [5, 7, 11]) = [5, 7, 11]) :=
  ⟨by decide, c5_reseasonalize_roundtrip .multiplicative [2, 3] 2 [5, 7, 11]
    (by decide)⟩

/-- Claim C6: for every fitted result, calling `forecast` with a non-positive
horizon or with `theta = 1` yields `InvalidArgument`; the guard is the first
thing evaluated and the error is the entire result, so no partial forecast is
produced (the engine is a pure function, so there is no other observable
state). -/
theorem c6_invalid_arguments (f : FittedTheta) (horizon : ℤ)
    (theta : Option ℚ) (h : horizon ≤ 0 ∨ theta = some 1) :
    forecast f horizon theta = .error .invalidArgument := by
  unfold forecast
  rcases h with h | h
  · rw [if_pos h]
  · subst h
    by_cases hp : horizon ≤ 0
    · rw [if_pos hp]
    · rw [if_neg hp, if_neg (by decide)]

/-- Witness for claim C6: a zero horizon and a unit theta both fail. -/
theorem c6_invalid_arguments_witness :
    forecast sampleFitted 0 (some 2) = .error .invalidArgument ∧
    forecast sampleFitted 3 (some 1) = .error .invalidArgument :=
  ⟨c6_invalid_arguments sampleFitted 0 (some 2) (Or.inl (by decide)),
   c6_invalid_arguments sampleFitted 3 (some 1) (Or.inr rfl)⟩

/-- Claim C7: for every series of length less than `2 * m` with seasonality
testing requested, `fit` fails with `ConfigurationError`; the guard is the
first branch of `fit`, before the seasonality test or any decomposition is
evaluated. -/
theorem c7_insufficient_sample (series : List ℚ) (m : ℕ) (method : Method)
    (alpha : ℚ) (h : series.length < 2 * m) :
    fit series m true method alpha = .error .configurationError := by
  unfold fit
  rw [if_pos ⟨rfl, h⟩]

/-- Witness for claim C7: three observations cannot support period 2. -/
theorem c7_insufficient_sample_witness :
    ([1, 2, 3] : List ℚ).length < 2 * 2 ∧
    fit [1, 2, 3] 2 true .multiplicative (1 / 2) = .error .configurationError :=
  ⟨by decide, c7_insufficient_sample [1, 2, 3] 2 .multiplicative (1 / 2)
    (by decide)⟩

/-- Claim C9: in maximum-likelihood mode the smoothing parameter returned by
the level smoother is exactly `min(gamma + 1, 0.9998)` for the estimated IMA
coefficient `gamma`, hence never exceeds 0.9998, and the realized smoothed
path is the SES path at that capped parameter.  The maximum-likelihood fit of
the IMA process itself is an external optimizer, so its estimate `gamma` is
universally quantified. -/
theorem c9_mle_alpha_cap (gamma : ℚ) (xs : List ℚ) :
    (levelSmootherMLE gamma xs).1 = min (gamma + 1) (9998 / 10000) ∧
    (levelSmootherMLE gamma xs).1 ≤ 9998 / 10000 ∧
    (levelSmootherMLE gamma xs).2 =
      sesPath (min (gamma + 1) (9998 / 10000)) xs :=
  ⟨rfl, min_le_right _ _, rfl⟩

/-- Claim C1: for every fitted result (drift `b0`, smoothing parameter
`alpha` in `(0, 1]`, smoothed level path over a series of length `n`), every
horizon step `h >= 1` within the horizon and every finite `theta > 1`, the
pre-reseasonalization point forecast at step `h` equals
`((theta - 1)/theta) * b0 * (h - 1 + 1/alpha - (1 - alpha)^n / alpha)` plus
the last smoothed value, whose contribution is the same constant (independent
of `h`) at every step of the horizon. -/
theorem c1_point_forecast_formula (xs : List ℚ) (m : ℕ) (method : Method)
    (alpha t : ℚ) (horizon : ℤ) (h : ℕ) (f : FittedTheta)
    (ha0 : 0 < alpha) (ha1 : alpha ≤ 1) (ht : 1 < t)
    (hf : fit xs m false method alpha = .ok f)
    (hh1 : 1 ≤ h) (hh2 : (h : ℤ) ≤ horizon) :
    ∃ L, forecast f horizon (some t) = .ok L ∧
      L[h - 1]? = some ((t - 1) / t * f.b0 *
        ((h : ℚ) - 1 + 1 / alpha - (1 - alpha) ^ xs.length / alpha) +
        lastLevel (sesPath alpha xs)) := by
  rw [fit_not_seasonal xs m method alpha ha0 ha1] at hf
  obtain rfl := Except.ok.inj hf
  have hpos : (0 : ℤ) < horizon := by omega
  have hv : validTheta (some t) = true := by simp [validTheta, ht]
  rw [forecast_ok_def _ _ _ hpos hv]
  refine ⟨_, rfl, ?_⟩
  have hlt : h - 1 < horizon.toNat := by omega
  rw [List.getElem?_map, List.getElem?_range hlt]
  have hsucc : h - 1 + 1 = h := by omega
  simp only [Option.map_some', hsucc]
  simp [pointForecastPre, thetaWeight, trendBracket]

/-- Witness for claim C1 at a concrete fitted result. -/
theorem c1_point_forecast_formula_witness :
    ∃ f, fit [1, 2] 0 false .multiplicative (1 / 2) = .ok f ∧
      ∃ L, forecast f 2 (some 2) = .ok L ∧
        L[0]? = some ((2 - 1) / 2 * f.b0 *
          ((1 : ℚ) - 1 + 1 / (1 / 2) - (1 - 1 / 2) ^ ([1, 2] : List ℚ).length / (1 / 2)) +
          lastLevel (sesPath (1 / 2) [1, 2])) := by
  obtain ⟨f, hf⟩ : ∃ f, fit ([1, 2] : List ℚ) 0 false .multiplicative (1 / 2) = .ok f :=
    ⟨_, rfl⟩
  exact ⟨f, hf, c1_point_forecast_formula [1, 2] 0 .multiplicative (1 / 2) 2 2 1 f
    (by decide) (by decide) (by decide) hf (by decide) (by decide)⟩

/-- Claim C2: for the constant series of value 100 repeated 24 times with
period 12, the seasonality test reports not seasonal, and fitting (with any
admissible smoothing parameter the external line search could return) followed
by `forecast 6 (theta = 2)` returns six forecasts of 100. -/
theorem c2_constant_series (alpha : ℚ) (h0 : 0 < alpha) (h1 : alpha ≤ 1) :
    isSeasonal const24 12 = false ∧
    ∃ f, fit const24 12 true .multiplicative alpha = .ok f ∧
      forecast f 6 (some 2) = .ok (List.replicate 6 100) := by
  refine ⟨by decide, ?_⟩
  have hfit := fit_tested_not_seasonal const24 12 .multiplicative alpha
    (by decide) (by decide) h0 h1
  refine ⟨_, hfit, ?_⟩
  rw [forecast_ok_def _ _ _ (by decide) (by decide)]
  have hses : sesPath alpha const24 = const24 := sesPath_const alpha 100 24
  have hb0 : olsSlope const24 = 0 := by decide
  have hlast : lastLevel const24 = 100 := by decide
  simp only [pointForecastPre, hses, hb0, hlast, mul_zero, zero_mul, zero_add]
  simp only [Bool.false_eq_true, if_false]
  rw [range_map_const]
  rfl

/-- Witness for claim C2 at the concrete smoothing parameter one half. -/
theorem c2_constant_series_witness :
    (0 : ℚ) < 1 / 2 ∧ (1 / 2 : ℚ) ≤ 1 ∧
    (isSeasonal const24 12 = false ∧
      ∃ f, fit const24 12 true .multiplicative (1 / 2) = .ok f ∧
        forecast f 6 (some 2) = .ok (List.replicate 6 100)) :=
  ⟨by decide, by decide, c2_constant_series (1 / 2) (by decide) (by decide)⟩

/-- Claim C3 counterexample: on the series `1, 2, ..., 20` the OLS trend fit
does recover slope 1 and intercept 1, but fitting with the admissible
smoothing parameter 1 and forecasting one step with `theta = 2` yields `3/2`,
not 21: the claim as stated is false. -/
theorem c3_linear_trend_counterexample :
    olsSlope series20 = 1 ∧ olsIntercept series20 = 1 ∧
    (fit series20 0 false .multiplicative 1).bind
      (fun f => forecast f 1 (some 2)) = .ok [3 / 2] ∧
    (3 / 2 : ℚ) ≠ 21 :=
  ⟨by decide, by decide, by decide, by decide⟩

/-- Claim C3 as amended: on the series `1, 2, ..., 20` the OLS trend fit
recovers slope 1 and intercept 1 exactly; the one-step forecast with
`theta = 2` equals `1/2 * (1 - 1 + 1/alpha - (1 - alpha)^20 / alpha)` plus the
last smoothed value, which depends on the smoothing parameter the external
line search returns and is not 21 in general (at `alpha = 1` it is `3/2`). -/
theorem c3_linear_trend_amended (alpha : ℚ) (f : FittedTheta)
    (h0 : 0 < alpha) (h1 : alpha ≤ 1)
    (hf : fit series20 0 false .multiplicative alpha = .ok f) :
    olsSlope series20 = 1 ∧ olsIntercept series20 = 1 ∧
    forecast f 1 (some 2) = .ok
      [1 / 2 * trendBracket alpha 20 1 + lastLevel (sesPath alpha series20)] := by
  refine ⟨by decide, by decide, ?_⟩
  rw [fit_not_seasonal series20 0 .multiplicative alpha h0 h1] at hf
  obtain rfl := Except.ok.inj hf
  rw [forecast_ok_def _ _ _ (by decide) (by decide)]
  have hb0 : olsSlope series20 = 1 := by decide
  have hlen : series20.length = 20 := by decide
  simp only [pointForecastPre, thetaWeight, hb0, hlen, Bool.false_eq_true,
    if_false, mul_one]
  norm_num
  show [2⁻¹ * trendBracket alpha 20 (0 + 1) + lastLevel (sesPath alpha series20)] = _
  norm_num

/-- Witness for the amended claim C3 at the smoothing parameter 1. -/
theorem c3_linear_trend_amended_witness :
    ∃ f, fit series20 0 false .multiplicative 1 = .ok f ∧
      (olsSlope series20 = 1 ∧ olsIntercept series20 = 1 ∧
        forecast f 1 (some 2) = .ok
          [1 / 2 * trendBracket 1 20 1 + lastLevel (sesPath 1 series20)]) := by
  obtain ⟨f, hf⟩ : ∃ f, fit series20 0 false .multiplicative 1 = .ok f := ⟨_, rfl⟩
  exact ⟨f, hf, c3_linear_trend_amended 1 f (by decide) (by decide) hf⟩

/-- Claim C8 counterexample: fitting the series `[0, 4]` with smoothing
parameter 1 (the fitted result is `sampleFitted`), the last observation of the
adjusted series is 4, yet the level component of the forecast is `[0, 0]`
rather than the naive last-value forecast `[4, 4]`, and the trend component is
`[4, 8]` rather than being dropped to `[0, 0]`.  Under the source recursion
`Xtilde_t = (1 - alpha) X_t + alpha Xtilde_{t-1}`, `alpha = 1` freezes the
level at the first observation. -/
theorem c8_alpha_one_counterexample :
    fit ([0, 4] : List ℚ) 0 false .multiplicative 1 = .ok sampleFitted ∧
    ([0, 4] : List ℚ).getLast? = some 4 ∧
    ∃ c, forecast_components sampleFitted 2 = .ok c ∧
      c.level = [0, 0] ∧ c.level ≠ [4, 4] ∧
      c.trend = [4, 8] ∧ c.trend ≠ [0, 0] := by
  refine ⟨by decide, by decide, _, rfl, by decide, by decide, by decide, by decide⟩

/-- Claim C8 as amended: for every series fitted with smoothing parameter 1,
the smoothed path is frozen at the first observation of the adjusted series,
so the level forecast at every horizon step equals that first observation held
constant; and since `(1 - alpha)^n = 0`, the `(1 - alpha)^n / alpha` term of
the trend bracket vanishes, so the bracket reduces to `h` (the trend term
itself, `((theta - 1)/theta) * b0 * h`, is not dropped). -/
theorem c8_alpha_one_amended (x : ℚ) (xs : List ℚ) (f : FittedTheta)
    (horizon : ℤ) (k : ℕ)
    (hf : fit (x :: xs) 0 false .multiplicative 1 = .ok f)
    (hpos : 0 < horizon) :
    (∃ c, forecast_components f horizon = .ok c ∧
      c.level = List.replicate horizon.toNat x) ∧
    trendBracket f.alpha f.n k = (k : ℚ) := by
  rw [fit_not_seasonal (x :: xs) 0 .multiplicative 1 one_pos (le_refl 1)] at hf
  obtain rfl := Except.ok.inj hf
  constructor
  · rw [forecast_components_ok_def _ _ hpos]
    refine ⟨_, rfl, ?_⟩
    have hlast : lastLevel (sesPath 1 (x :: xs)) = x := by
      rw [sesPath_one, lastLevel_replicate _ _ (Nat.succ_pos _)]
    simp only [hlast]
    exact range_map_const horizon.toNat x
  · show trendBracket 1 (x :: xs).length k = (k : ℚ)
    unfold trendBracket
    rw [List.length_cons, sub_self, zero_pow (Nat.succ_ne_zero _)]
    norm_num

/-- Witness for the amended claim C8 at a concrete series and horizon. -/
theorem c8_alpha_one_amended_witness :
    ∃ f, fit ([0, 4] : List ℚ) 0 false .multiplicative 1 = .ok f ∧
      ((∃ c, forecast_components f 2 = .ok c ∧
          c.level = List.replicate (Int.toNat 2) 0) ∧
        trendBracket f.alpha f.n 5 = (5 : ℚ)) := by
  obtain ⟨f, hf⟩ : ∃ f, fit ([0, 4] : List ℚ) 0 false .multiplicative 1 = .ok f :=
    ⟨_, rfl⟩
  exact ⟨f, hf, c8_alpha_one_amended 0 [4] f 2 5 hf (by decide)⟩

/-- Looking up a mapped range at an in-range index gives the mapped index. -/
theorem getD_range_map (g : ℕ → ℚ) (n i : ℕ) (d : ℚ) (hi : i < n) :
    ((List.range n).map g).getD i d = g i := by
  have hlen : i < ((List.range n).map g).length := by simpa using hi
  rw [List.getD_eq_getElem _ d hlen]
  simp

/-- Claim C4 counterexample: for the fitted result of the series `[0, 4]`
(with smoothing parameter 1), horizon 1 and `theta = 2`, summing the
components as trend plus level and then reseasonalizing gives `[4]`, while
`forecast` gives `[2]`: without damping the trend by `(theta - 1)/theta`, the
component sum does not reproduce the forecast. -/
theorem c4_components_counterexample :
    fit ([0, 4] : List ℚ) 0 false .multiplicative 1 = .ok sampleFitted ∧
    ∃ c L, forecast_components sampleFitted 1 = .ok c ∧
      forecast sampleFitted 1 (some 2) = .ok L ∧
      (c.trend.zip (c.level.zip c.seasonal)).map
        (fun p => restoreValue sampleFitted.method (p.1 + p.2.1) p.2.2) ≠ L := by
  exact ⟨by decide, _, _, rfl, rfl, by decide⟩

/-- Claim C4 as amended: for every fitted result, positive horizon and valid
theta, the component sequences of `forecast_components` reproduce
`forecast(horizon, theta)` element-wise once the trend component is damped by
the weight `(theta - 1)/theta` before being summed with the level and
reseasonalized; the plain (undamped) sum reproduces the `theta = infinity`
forecast, the case `thetaWeight = 1`. -/
theorem c4_components_recombine (f : FittedTheta) (horizon : ℤ)
    (theta : Option ℚ) (hpos : 0 < horizon) (hv : validTheta theta = true) :
    ∃ c L, forecast_components f horizon = .ok c ∧
      forecast f horizon theta = .ok L ∧
      ∀ i, i < horizon.toNat →
        L[i]? = some (restoreValue f.method
          (thetaWeight theta * c.trend.getD i 0 + c.level.getD i 0)
          (c.seasonal.getD i (defaultFactor f.method))) := by
  rw [forecast_components_ok_def _ _ hpos, forecast_ok_def _ _ _ hpos hv]
  refine ⟨_, _, rfl, rfl, ?_⟩
  intro i hi
  rw [List.getElem?_map, List.getElem?_range hi, Option.map_some']
  rw [getD_range_map _ _ _ _ hi, getD_range_map _ _ _ _ hi,
    getD_range_map _ _ _ _ hi]
  cases hs : f.seasonal with
  | true =>
    simp only [hs, if_true, pointForecastPre]
    rw [mul_assoc]
  | false =>
    simp only [hs, Bool.false_eq_true, if_false, pointForecastPre]
    cases f.method with
    | multiplicative =>
      simp only [restoreValue, defaultFactor, mul_one, mul_assoc]
    | additive =>
      simp only [restoreValue, defaultFactor, add_zero, mul_assoc]

/-- Witness for the amended claim C4 at a concrete fitted result. -/
theorem c4_components_recombine_witness :
    ∃ c L, forecast_components sampleFitted 2 = .ok c ∧
      forecast sampleFitted 2 (some 2) = .ok L ∧
      ∀ i, i < (2 : ℤ).toNat →
        L[i]? = some (restoreValue sampleFitted.method
          (thetaWeight (some 2) * c.trend.getD i 0 + c.level.getD i 0)
          (c.seasonal.getD i (defaultFactor sampleFitted.method))) :=
  c4_components_recombine sampleFitted 2 (some 2) (by decide) (by decide)

/-- Claim C10: for a fixed fitted result with admissible smoothing parameter
and a fixed horizon step `h >= 1`, the pre-reseasonalization point forecast is
monotone non-decreasing in theta over `(1, +infinity]` when the drift `b0` is
nonnegative, and monotone non-increasing when `b0` is nonpositive; `none`
encodes `theta = infinity`, the top of the theta order, whose weight is the
limit 1 of `(theta - 1)/theta`. -/
theorem c10_theta_monotone (f : FittedTheta) (h : ℕ) (t u : Option ℚ)
    (ha0 : 0 < f.alpha) (ha1 : f.alpha ≤ 1) (hh : 1 ≤ h)
    (hvt : validTheta t = true) (hle : thetaLE t u) :
    (0 ≤ f.b0 → pointForecastPre f t h ≤ pointForecastPre f u h) ∧
    (f.b0 ≤ 0 → pointForecastPre f u h ≤ pointForecastPre f t h) := by
  have hw := thetaWeight_mono t u hvt hle
  have hbr := trendBracket_nonneg f.alpha f.n h ha0 ha1 hh
  unfold pointForecastPre
  constructor <;> intro hb
  · have hmul : thetaWeight t * (f.b0 * trendBracket f.alpha f.n h) ≤
        thetaWeight u * (f.b0 * trendBracket f.alpha f.n h) :=
      mul_le_mul_of_nonneg_right hw (mul_nonneg hb hbr)
    rw [mul_assoc, mul_assoc]
    exact add_le_add_right hmul _
  · have hmul : thetaWeight u * (f.b0 * trendBracket f.alpha f.n h) ≤
        thetaWeight t * (f.b0 * trendBracket f.alpha f.n h) :=
      mul_le_mul_of_nonpos_right hw (mul_nonpos_of_nonpos_of_nonneg hb hbr)
    rw [mul_assoc, mul_assoc]
    exact add_le_add_right hmul _

/-- Witness for claim C10: a finite theta of 2 against infinity on a fitted
result with positive drift. -/
theorem c10_theta_monotone_witness :
    (0 ≤ sampleFitted.b0 →
      pointForecastPre sampleFitted (some 2) 1 ≤
        pointForecastPre sampleFitted none 1) ∧
    (sampleFitted.b0 ≤ 0 →
      pointForecastPre sampleFitted none 1 ≤
        pointForecastPre sampleFitted (some 2) 1) :=
  c10_theta_monotone sampleFitted 1 (some 2) none (by decide) (by decide)
    (by decide) (by decide) trivial

end ThetaSpec
